import Mathlib

/-!
Verification development for the installer-metadata extraction core of the
JSSImporter repository (file `JSSPatchGenerator.py`).

The Python source is shallowly embedded:
  - strings are Lean `String` (a structure over `List Char`), and every string
    operation used by the source (`startswith`, `endswith`, `strip`, `split`,
    slicing, `os.path.join`, `os.path.dirname`, `urllib2.unquote`, `int`) is
    re-implemented below by structural recursion over character lists so that
    the kernel can evaluate it;
  - the filesystem and the external `xar` / `minidom` calls are a record of
    functions `FS` (an oracle world: which paths are files or directories,
    what `xar -tf` prints, the exit status of each `xar -xf` call, and the XML
    document obtained by parsing the file at a path);
  - mutable interpreter state that the claims observe (the counter behind
    `tempfile.mkdtemp` and the set of scratch directories currently on disk)
    is threaded explicitly as a `St` value;
  - fallible code runs in `Except PyErr (α × St)`; a Python function that
    falls off its end returns Python `None`, embedded as `Option.none`;
  - the mutual recursion `parse_distribution_refs → get_pkg_receiptinfo →
    get_flat_pkg_info → parse_distribution_refs` is made total with an
    explicit fuel parameter; exhausting the fuel yields `PyErr.outOfFuel`.
-/

/-- Errors a run of the embedded code can surface.
`typeError` models the Python `TypeError` raised by `list.extend(None)`;
`attributeError` models the `AttributeError` raised when the source calls the
method `get_bundle_pkg_info`, which is referenced on line 274 of
`JSSPatchGenerator.py` but defined nowhere in the repository; `outOfFuel` is
the artefact of the fuel-based embedding of the mutual recursion. -/
inductive PyErr where
  | typeError
  | attributeError
  | outOfFuel
deriving DecidableEq

/-! ## Character / string primitives (Python semantics, kernel-evaluable) -/

/-- `p` is a leading segment of `s` (Python `s.startswith(p)`). -/
def strStartsWith (s p : String) : Bool :=
  p.data.isPrefixOf s.data

/-- `p` is a trailing segment of `s` (Python `s.endswith(p)`). -/
def strEndsWith (s p : String) : Bool :=
  p.data.reverse.isPrefixOf s.data.reverse

/-- Python slicing `s[n:]`. -/
def strDrop (s : String) (n : Nat) : String :=
  ⟨s.data.drop n⟩

/-- The whitespace characters removed by Python `str.strip()`. -/
def isPySpace (c : Char) : Bool :=
  c = ' ' || c = '\t' || c = '\n' || c = '\r' || c = '\x0b' || c = '\x0c'

/-- Python `str.strip()`. -/
def pyStrip (s : String) : String :=
  ⟨((s.data.dropWhile isPySpace).reverse.dropWhile isPySpace).reverse⟩

/-- Split a character list at every occurrence of `c`; the empty list yields
one empty group, matching Python `"".split(c) == [""]`. -/
def splitCharList (c : Char) : List Char → List (List Char)
  | [] => [[]]
  | x :: xs =>
    match splitCharList c xs with
    | [] => [[]]
    | g :: gs => if x = c then [] :: g :: gs else (x :: g) :: gs

/-- Python `s.split(c)` for a one-character separator (the source only ever
splits on a newline). -/
def strSplitOn (s : String) (c : Char) : List String :=
  (splitCharList c s.data).map (fun l => ⟨l⟩)

/-- Value of a hexadecimal digit, as used by percent-decoding. -/
def hexVal (c : Char) : Option Nat :=
  if 48 ≤ c.toNat ∧ c.toNat ≤ 57 then some (c.toNat - 48)
  else if 97 ≤ c.toNat ∧ c.toNat ≤ 102 then some (c.toNat - 87)
  else if 65 ≤ c.toNat ∧ c.toNat ≤ 70 then some (c.toNat - 55)
  else none

/-- Percent-decoding over characters; an ill-formed escape is kept verbatim,
as `urllib2.unquote` keeps it. -/
def unquoteChars : List Char → List Char
  | [] => []
  | '%' :: a :: b :: rest2 =>
    match hexVal a, hexVal b with
    | some x, some y => Char.ofNat (16 * x + y) :: unquoteChars rest2
    | _, _ => '%' :: unquoteChars (a :: b :: rest2)
  | c :: rest => c :: unquoteChars rest

/-- Python `urllib2.unquote`. -/
def pyUnquote (s : String) : String :=
  ⟨unquoteChars s.data⟩

/-- Decimal digit parsing for Python `int(...)`. The source only ever applies
`int` to well-formed `installKBytes` numerals; the `ValueError` raised on a
malformed numeral is outside the scope of every claim and is not modelled
(a malformed numeral decodes to its digit fold). -/
def natOfDigits (l : List Char) : Nat :=
  l.foldl (fun a c => a * 10 + (c.toNat - 48)) 0

/-- Python `int(s)` on the numerals the source feeds it. -/
def pyInt (s : String) : Int :=
  match s.data with
  | '-' :: ds => -(natOfDigits ds : Int)
  | ds => (natOfDigits ds : Int)

/-- Python `os.path.join(a, b)` for one joint: an absolute second component
discards the first; no normalisation of `.` segments is performed. -/
def osPathJoin (a b : String) : String :=
  if strStartsWith b "/" then b
  else if a = "" then b
  else if strEndsWith a "/" then a ++ b
  else a ++ "/" ++ b

/-- Python `os.path.dirname` (posixpath): everything up to the last slash,
with trailing slashes stripped unless the head is all slashes. -/
def osPathDirname (p : String) : String :=
  let headRev := p.data.reverse.dropWhile (fun c => c ≠ '/')
  if headRev = [] then ⟨[]⟩
  else if headRev.all (fun c => c = '/') then ⟨headRev.reverse⟩
  else ⟨(headRev.dropWhile (fun c => c = '/')).reverse⟩

/-- Decimal digit character. -/
def digitChar (n : Nat) : Char :=
  if n = 0 then '0' else if n = 1 then '1' else if n = 2 then '2'
  else if n = 3 then '3' else if n = 4 then '4' else if n = 5 then '5'
  else if n = 6 then '6' else if n = 7 then '7' else if n = 8 then '8'
  else if n = 9 then '9' else '?'

/-- Decimal digits of `n`, most significant first, computed with fuel so the
recursion is structural. -/
def natStrAux : Nat → Nat → List Char
  | 0, _ => []
  | fuel + 1, n =>
    if n < 10 then [digitChar n]
    else natStrAux fuel (n / 10) ++ [digitChar (n % 10)]

/-- Decimal rendering of a natural number. -/
def natStr (n : Nat) : String :=
  ⟨natStrAux (n + 1) n⟩

/-! ## Data model -/

/-- One component reference record. The Python source builds these as dicts:
`packageid` is always present, the other keys are optional, which the
embedding renders as `Option` fields (an absent key is `none`). A dict whose
`file` key was removed by `del` equals the record with `file := none`. -/
structure PkgRec where
  packageid : String
  version : Option String
  installed_size : Option Int
  file : Option String
deriving DecidableEq

/-- Classification tag yielded by `extracted_package_info`. -/
inductive InfoType where
  | pkginfo
  | distribution
deriving DecidableEq

/-- An XML element as far as the source inspects one: its attribute map, the
attribute maps of its descendant `payload` elements (in document order), and
the text of its first child when that child is a text node
(`ref.firstChild.wholeText`). -/
structure XNode where
  attrs : List (String × String)
  payloads : List (List (String × String))
  text : Option String
deriving DecidableEq

/-- A parsed XML document as far as the source inspects one: the element
lists returned by `getElementsByTagName` for the two tag names it queries,
in document order. -/
structure XDoc where
  pkgInfos : List XNode
  pkgRefs : List XNode
deriving DecidableEq

/-- The world oracle: filesystem predicates and the behaviour of the external
processes and the XML library.
`tocOut`/`tocRet` are the stdout and exit status of `xar -tf path`;
`extractRet pkg entry` is the exit status of `xar -xf pkg entry`;
`parseDoc path` is the document `minidom.parse(path)` yields, assumed
consistent with extraction (the file extracted to a scratch path parses to
the corresponding archive member). -/
structure FS where
  isFile : String → Bool
  isDir : String → Bool
  tocOut : String → String
  tocRet : String → Int
  extractRet : String → String → Int
  parseDoc : String → XDoc

/-- Python `os.path.exists` over the world oracle. -/
def pathExists (fs : FS) (p : String) : Bool :=
  fs.isFile p || fs.isDir p

/-- Interpreter state the claims observe: the counter behind fresh scratch
directory names and the list of scratch directories currently on disk. The
source never removes a directory (no `shutil.rmtree`/`os.rmdir` appears in
the repository), so no operation ever shrinks `dirs`. -/
structure St where
  tmpCounter : Nat
  dirs : List String
deriving DecidableEq

/-- Scratch directory name produced by the `k`-th `tempfile.mkdtemp` call. -/
def scratchDir (k : Nat) : String :=
  "/tmp/tmp" ++ natStr k

/-- `tempfile.mkdtemp()`: returns a fresh directory path and records it. -/
def mkdtemp (st : St) : String × St :=
  let d := scratchDir st.tmpCounter
  (d, ⟨st.tmpCounter + 1, st.dirs ++ [d]⟩)

/-- Result of an embedded stateful, fallible computation. -/
abbrev Res (α : Type) := Except PyErr (α × St)

/-! ## `extracted_package_info` (lines 40-69) -/

/-- Processing of a single TOC entry by the generator body: the three
independent `if` statements of lines 50-69. Returns the pairs yielded for
this entry and the messages printed for it. A failed `subprocess.call`
(non-zero status) yields nothing and logs; the generator then proceeds with
the next entry. -/
def entryExtract (fs : FS) (pkg_path tmpdir entry : String) :
    List (String × InfoType) × List String :=
  let r := fs.extractRet pkg_path entry
  let a :=
    if strStartsWith entry "PackageInfo" then
      if r = 0 then ([(osPathJoin tmpdir entry, InfoType.pkginfo)], ([] : List String))
      else ([], ["Failed to extract PackageInfo"])
    else ([], [])
  let b :=
    if strEndsWith entry ".pkg/PackageInfo" then
      if r = 0 then ([(osPathJoin tmpdir entry, InfoType.pkginfo)], ([] : List String))
      else ([], ["Failed to extract .pkg/PackageInfo"])
    else ([], [])
  let c :=
    if strStartsWith entry "Distribution" then
      if r = 0 then ([(osPathJoin tmpdir entry, InfoType.distribution)], ([] : List String))
      else ([], ["Failed to extract Distribution file"])
    else ([], [])
  (a.1 ++ b.1 ++ c.1, a.2 ++ b.2 ++ c.2)

/-- The generator `extracted_package_info(pkg_path, toc, tmpdir)`: first
component is the sequence of `(extracted path, classification)` pairs it
yields, second component the messages it prints. -/
def extracted_package_info (fs : FS) (pkg_path : String) (toc : List String)
    (tmpdir : String) : List (String × InfoType) × List String :=
  ((toc.map (fun e => (entryExtract fs pkg_path tmpdir e).1)).flatten,
   (toc.map (fun e => (entryExtract fs pkg_path tmpdir e).2)).flatten)

/-- Does this entry match one of the three patterns for which extraction is
attempted at all? -/
def matchesInfoPattern (entry : String) : Bool :=
  strStartsWith entry "PackageInfo" || strEndsWith entry ".pkg/PackageInfo" ||
    strStartsWith entry "Distribution"

/-! ## `parse_pkginfo_refs` (lines 166-192) -/

/-- The record one `pkg-info` element contributes, if any (lines 174-187):
the element must carry both `identifier` and `version`, have at least one
descendant `payload`, and the first such `payload` must carry
`installKBytes`. -/
def pkgInfoNodeRec (ref : XNode) : Option PkgRec :=
  match ref.attrs.lookup "identifier", ref.attrs.lookup "version" with
  | some ident, some ver =>
    match ref.payloads with
    | [] => none
    | pl0 :: _ =>
      match pl0.lookup "installKBytes" with
      | some kb =>
        some { packageid := ident, version := some ver,
               installed_size := some (pyInt kb), file := none }
      | none => none
  | _, _ => none

/-- One iteration of the `parse_pkginfo_refs` loop: append the contributed
record unless an equal record is already present (the
`if pkginfo not in info` dedup on line 188). -/
def pkgInfoStep (info : List PkgRec) (ref : XNode) : List PkgRec :=
  match pkgInfoNodeRec ref with
  | some r => if r ∈ info then info else info ++ [r]
  | none => info

/-- `parse_pkginfo_refs(pkg_info_path)`: folds over the `pkg-info` elements.
This function does return its list. -/
def parse_pkginfo_refs (fs : FS) (pkg_info_path : String) : List PkgRec :=
  (fs.parseDoc pkg_info_path).pkgInfos.foldl pkgInfoStep []

/-! ## `parse_distribution_refs`, first loop (lines 203-233) -/

/-- The `file` value a `pkg-ref` element contributes (lines 216-233): a body
text ending in `.pkg` is resolved either through the `file:` branch (strip
the scheme, percent-decode, join to the directory of
`path_to_pkg or distribution_path`) or through the plain branch (strip a
leading `#`, percent-decode, join to the directory of the distribution file
itself). `path_to_pkg.getD distribution_path` embeds the Python
`path_to_pkg or distribution_path` (the paths involved are never the empty
string, so Python truthiness coincides with `Option`). -/
def refFile (ref : XNode) (distribution_path : String)
    (path_to_pkg : Option String) : Option String :=
  match ref.text with
  | none => none
  | some text =>
    if strEndsWith text ".pkg" then
      if strStartsWith text "file:" then
        let relativepath := pyUnquote (strDrop text 5)
        let pkgdir := osPathDirname (path_to_pkg.getD distribution_path)
        some (osPathJoin pkgdir relativepath)
      else
        let t := if strStartsWith text "#" then strDrop text 1 else text
        let relativepath := pyUnquote t
        let thisdir := osPathDirname distribution_path
        some (osPathJoin thisdir relativepath)
    else none

/-- Update of the accumulating record for one repeated `pkg-ref` (lines
209-233): a present `version` overwrites, a present `installKBytes`
overwrites, a qualifying body text overwrites `file`. -/
def updRef (rec : PkgRec) (ref : XNode) (distribution_path : String)
    (path_to_pkg : Option String) : PkgRec :=
  let rec1 :=
    match ref.attrs.lookup "version" with
    | some v => { rec with version := some v }
    | none => rec
  let rec2 :=
    match ref.attrs.lookup "installKBytes" with
    | some kb => { rec1 with installed_size := some (pyInt kb) }
    | none => rec1
  match refFile ref distribution_path path_to_pkg with
  | some f => { rec2 with file := some f }
  | none => rec2

/-- Python dict access on the accumulating `pkgref_dict`, embedded as an
association list. -/
def dictGet (d : List (String × PkgRec)) (q : String) : Option PkgRec :=
  match d with
  | [] => none
  | (k0, v0) :: rest => if q = k0 then some v0 else dictGet rest q

/-- Insert-or-replace in an association list, keeping the position of an
existing key (Python dict assignment). -/
def assocSet (d : List (String × PkgRec)) (k : String) (v : PkgRec) :
    List (String × PkgRec) :=
  match d with
  | [] => [(k, v)]
  | (k0, v0) :: rest =>
    if k0 = k then (k, v) :: rest else (k0, v0) :: assocSet rest k v

/-- One iteration of the accumulation loop (lines 203-233): an element
without an `id` attribute is skipped entirely; otherwise the record under
its id (created on first sight as `{packageid: pkgid}`) is updated. -/
def accumStep (distribution_path : String) (path_to_pkg : Option String)
    (dict : List (String × PkgRec)) (ref : XNode) : List (String × PkgRec) :=
  match ref.attrs.lookup "id" with
  | none => dict
  | some pkgid =>
    let cur :=
      match dictGet dict pkgid with
      | some r => r
      | none => { packageid := pkgid, version := none,
                  installed_size := none, file := none }
    assocSet dict pkgid (updRef cur ref distribution_path path_to_pkg)

/-- The accumulated `pkgref_dict` after the first loop of
`parse_distribution_refs`, keyed by `id`. CPython 2 dict iteration order is
arbitrary; the embedding fixes insertion order, on which no claim depends. -/
def accumRefs (refs : List XNode) (distribution_path : String)
    (path_to_pkg : Option String) : List (String × PkgRec) :=
  refs.foldl (accumStep distribution_path path_to_pkg) []

/-! ## The recursive cluster (lines 194-278)

`parse_distribution_refs` (second loop), `get_flat_pkg_info` and
`get_pkg_receiptinfo` are mutually recursive through nested-installer
descent. Each is split into a combinator taking its recursive callee as an
argument; the single recursive definition `get_pkg_receiptinfo` then ties
the knot by structural recursion on the fuel. -/

/-- The second loop of `parse_distribution_refs` (lines 235-244), iterating
over the accumulated dict. A record whose `file` exists on disk is replaced
by the recursive extraction of that nested installer
(`info.extend(self.get_pkg_receiptinfo(pkgref['file']))`; since
`get_pkg_receiptinfo` returns Python `None` for a flat file, the `extend`
raises `TypeError`, embedded as `PyErr.typeError`); otherwise a record with a
`version` is appended after `del pkgref['file']`; a record with neither is
skipped. -/
def resolveLoopAux (fs : FS) (recurse : String → St → Res (Option (List PkgRec))) :
    List (String × PkgRec) → List PkgRec → St → Res (List PkgRec)
  | [], info, st => .ok (info, st)
  | (_key, pkgref) :: rest, info, st =>
    match pkgref.file with
    | some f =>
      if pathExists fs f then
        match recurse f st with
        | .error e => .error e
        | .ok (none, _) => .error .typeError
        | .ok (some l, st1) => resolveLoopAux fs recurse rest (info ++ l) st1
      else
        match pkgref.version with
        | some _ => resolveLoopAux fs recurse rest (info ++ [{ pkgref with file := none }]) st
        | none => resolveLoopAux fs recurse rest info st
    | none =>
      match pkgref.version with
      | some _ => resolveLoopAux fs recurse rest (info ++ [{ pkgref with file := none }]) st
      | none => resolveLoopAux fs recurse rest info st

/-- `parse_distribution_refs(distribution_path, path_to_pkg=None)` given its
recursive callee. The `refs is None` check on line 200 is dead code
(`getElementsByTagName` returns a list, never `None`) and is not modelled.
The function body builds `info` but ends without a `return` statement, so
the call evaluates to Python `None` (`Option.none`) while still performing
the recursive descent and its effects. -/
def parseDistAux (fs : FS) (recurse : String → St → Res (Option (List PkgRec)))
    (distribution_path : String) (path_to_pkg : Option String) (st : St) :
    Res (Option (List PkgRec)) :=
  let refs := (fs.parseDoc distribution_path).pkgRefs
  let pkgref_dict := accumRefs refs distribution_path path_to_pkg
  match resolveLoopAux fs recurse pkgref_dict [] st with
  | .error e => .error e
  | .ok (_info, st1) => .ok (none, st1)

/-- The dispatch loop of `get_flat_pkg_info` (lines 259-265): the result of
`parse_pkginfo_refs` is computed and discarded; `parse_distribution_refs` is
invoked with a single argument, so `path_to_pkg` is `None` there. -/
def flatLoopAux (fs : FS)
    (parseD : String → Option String → St → Res (Option (List PkgRec))) :
    List (String × InfoType) → St → Res Unit
  | [], st => .ok ((), st)
  | (infofile_path, ty) :: rest, st =>
    match ty with
    | .pkginfo =>
      let _discarded := parse_pkginfo_refs fs infofile_path
      flatLoopAux fs parseD rest st
    | .distribution =>
      match parseD infofile_path none st with
      | .error e => .error e
      | .ok (_x, st1) => flatLoopAux fs parseD rest st1

/-- `get_flat_pkg_info(filename)` given the distribution parser. The exit
status of `xar -tf` (`fs.tocRet`) is never consulted: the stdout is stripped
and split on newlines regardless of success. A scratch directory is created
with `tempfile.mkdtemp()`; nothing ever removes it. The function body ends
without a `return` statement, so the call evaluates to Python `None`. -/
def getFlatAux (fs : FS)
    (parseD : String → Option String → St → Res (Option (List PkgRec)))
    (filename : String) (st : St) : Res (Option (List PkgRec)) :=
  let toc := strSplitOn (pyStrip (fs.tocOut filename)) '\n'
  let md := mkdtemp st
  match flatLoopAux fs parseD (extracted_package_info fs filename toc md.1).1 md.2 with
  | .error e => .error e
  | .ok (_u, st2) => .ok (none, st2)

/-- `get_pkg_receiptinfo(filename)` (lines 267-278), fuel-indexed. A regular
file goes through `get_flat_pkg_info`; a directory reaches the undefined
method `get_bundle_pkg_info` and raises `AttributeError`; anything else
returns the initial `info = None`. -/
def get_pkg_receiptinfo (fs : FS) : Nat → String → St → Res (Option (List PkgRec))
  | 0 => fun _ _ => .error .outOfFuel
  | n + 1 => fun filename st =>
    if fs.isFile filename then
      getFlatAux fs (parseDistAux fs (get_pkg_receiptinfo fs n)) filename st
    else if fs.isDir filename then
      .error .attributeError
    else
      .ok (none, st)

/-- `parse_distribution_refs` with the recursion closed off at the given
fuel. -/
def parse_distribution_refs (fs : FS) (fuel : Nat) (distribution_path : String)
    (path_to_pkg : Option String) (st : St) : Res (Option (List PkgRec)) :=
  parseDistAux fs (get_pkg_receiptinfo fs fuel) distribution_path path_to_pkg st

/-- `get_flat_pkg_info` with the recursion closed off at the given fuel. -/
def get_flat_pkg_info (fs : FS) (fuel : Nat) (filename : String) (st : St) :
    Res (Option (List PkgRec)) :=
  getFlatAux fs (parse_distribution_refs fs fuel) filename st

/-! ## Spec-side definitions used to state the claims -/

/-- The aggregation of installer `p` in world `fs` exhausts every recursion
bound: no amount of fuel lets `get_pkg_receiptinfo` finish. -/
def aggDiverges (fs : FS) (p : String) : Prop :=
  ∀ (n : Nat) (st : St), get_pkg_receiptinfo fs n p st = .error .outOfFuel

/-- The value of attribute `attrName` carried by the last element (in
document order) with `id` equal to `pid` that carries it at all. -/
def lastAttrVal (refs : List XNode) (pid attrName : String) : Option String :=
  refs.foldl
    (fun acc r =>
      if r.attrs.lookup "id" = some pid then
        match r.attrs.lookup attrName with
        | some v => some v
        | none => acc
      else acc)
    none

/-- The resolved `file` path contributed by the last element (in document
order) with `id` equal to `pid` whose body text qualifies as a package
reference. -/
def lastFileVal (refs : List XNode) (distribution_path : String)
    (path_to_pkg : Option String) (pid : String) : Option String :=
  refs.foldl
    (fun acc r =>
      if r.attrs.lookup "id" = some pid then
        match refFile r distribution_path path_to_pkg with
        | some f => some f
        | none => acc
      else acc)
    none

/-- Does some element of the list carry `id` equal to `pid`? -/
def hasRefWithId (refs : List XNode) (pid : String) : Bool :=
  refs.any (fun r => decide (r.attrs.lookup "id" = some pid))

/-- The scratch-directory list only grows from `st` to `st1`: nothing was
removed from it. -/
def dirsGrow (st st1 : St) : Prop :=
  ∃ l, st1.dirs = st.dirs ++ l

/-! ## Concrete worlds used by the closed theorems -/

/-- The document with no elements of either tag. -/
def emptyDoc : XDoc := { pkgInfos := [], pkgRefs := [] }

/-- PackageInfo document of the simple flat package: one well-formed
`pkg-info` element. -/
def docA : XDoc :=
  { pkgInfos := [ { attrs := [("identifier", "com.example.a"), ("version", "1.2.3")],
                    payloads := [[("installKBytes", "2048")]], text := none } ],
    pkgRefs := [] }

/-- World A: `/tmp/a.pkg` is a flat package whose archive lists a single
`PackageInfo` member carrying one valid component record. -/
def fsA : FS :=
  { isFile := fun p => p == "/tmp/a.pkg",
    isDir := fun _ => false,
    tocOut := fun _ => "PackageInfo\n",
    tocRet := fun _ => 0,
    extractRet := fun _ _ => 0,
    parseDoc := fun p => if p == "/tmp/tmp0/PackageInfo" then docA else emptyDoc }

/-- Distribution document whose single `pkg-ref` body names the containing
installer itself by absolute path: a direct self-reference of length 1. -/
def cycDoc : XDoc :=
  { pkgInfos := [],
    pkgRefs := [ { attrs := [("id", "com.cyc")], payloads := [],
                   text := some "#/tmp/cyc.pkg" } ] }

/-- World Cyc: `/tmp/cyc.pkg` is a flat package whose `Distribution`
descriptor resolves straight back to `/tmp/cyc.pkg`. -/
def fsCyc : FS :=
  { isFile := fun p => p == "/tmp/cyc.pkg",
    isDir := fun _ => false,
    tocOut := fun _ => "Distribution",
    tocRet := fun _ => 0,
    extractRet := fun _ _ => 0,
    parseDoc := fun _ => cycDoc }

/-- Distribution with one ref whose body resolves to an existing nested flat
package. -/
def docB1 : XDoc :=
  { pkgInfos := [],
    pkgRefs := [ { attrs := [("id", "com.sub")], payloads := [],
                   text := some "#sub.pkg" } ] }

/-- Distribution with one version-only ref (no body text). -/
def docB2 : XDoc :=
  { pkgInfos := [],
    pkgRefs := [ { attrs := [("id", "com.v"), ("version", "2.0")],
                   payloads := [], text := none } ] }

/-- World B: `/tmp/d3/Distribution` references the existing flat package
`/tmp/d3/sub.pkg`; `/tmp/d4/Distribution` carries a version-only ref. -/
def fsB : FS :=
  { isFile := fun p => p == "/tmp/d3/sub.pkg",
    isDir := fun _ => false,
    tocOut := fun _ => "PackageInfo",
    tocRet := fun _ => 0,
    extractRet := fun _ _ => 0,
    parseDoc := fun p =>
      if p == "/tmp/d3/Distribution" then docB1
      else if p == "/tmp/d4/Distribution" then docB2
      else emptyDoc }

/-- The `pkg-ref` of the spec example for `file:` resolution: body
`file:./Sub%20App.pkg`. -/
def subRefC4 : XNode :=
  { attrs := [("id", "com.sub")], payloads := [],
    text := some "file:./Sub%20App.pkg" }

/-- Distribution carrying only the spec-example ref. -/
def docC4 : XDoc := { pkgInfos := [], pkgRefs := [subRefC4] }

/-- World C4: the flat installer `/tmp/x/main.pkg` contains the spec-example
`Distribution`; the referenced `/tmp/x/Sub App.pkg` exists on disk next to
the installer (and is itself a file). -/
def fsC4 : FS :=
  { isFile := fun p => p == "/tmp/x/main.pkg" || p == "/tmp/x/Sub App.pkg",
    isDir := fun _ => false,
    tocOut := fun _ => "Distribution",
    tocRet := fun _ => 0,
    extractRet := fun _ _ => 0,
    parseDoc := fun p => if p == "/tmp/tmp0/Distribution" then docC4 else emptyDoc }

/-- PackageInfo document whose `pkg-info` element has two payload children;
only the second carries `installKBytes`. -/
def doc5 : XDoc :=
  { pkgInfos := [ { attrs := [("identifier", "com.a"), ("version", "1.0")],
                    payloads := [[], [("installKBytes", "7")]], text := none } ],
    pkgRefs := [] }

/-- World 5: every path parses to `doc5`. -/
def fs5 : FS :=
  { isFile := fun _ => false,
    isDir := fun _ => false,
    tocOut := fun _ => "",
    tocRet := fun _ => 0,
    extractRet := fun _ _ => 0,
    parseDoc := fun _ => doc5 }

/-- World E: listing the archive `/tmp/bad.pkg` fails (exit status 1, empty
stdout). -/
def fsE : FS :=
  { isFile := fun p => p == "/tmp/bad.pkg",
    isDir := fun _ => false,
    tocOut := fun _ => "",
    tocRet := fun _ => 1,
    extractRet := fun _ _ => 1,
    parseDoc := fun _ => emptyDoc }

/-- World 9: extracting the entry `PackageInfo` fails, every other entry
extracts fine. -/
def fs9 : FS :=
  { isFile := fun _ => false,
    isDir := fun _ => false,
    tocOut := fun _ => "",
    tocRet := fun _ => 0,
    extractRet := fun _ e => if e == "PackageInfo" then 1 else 0,
    parseDoc := fun _ => emptyDoc }

/-- A `pkg-ref` element with no `id` attribute but carrying a version, a
size and a qualifying body text. -/
def noIdRef : XNode :=
  { attrs := [("version", "9.9"), ("installKBytes", "123")],
    payloads := [], text := some "#orphan.pkg" }

/-- Two refs with the same id, exercising last-write-wins merging. -/
def dupRefs : List XNode :=
  [ { attrs := [("id", "com.d"), ("version", "1.0"), ("installKBytes", "10")],
      payloads := [], text := none },
    { attrs := [("id", "com.d"), ("version", "2.0")],
      payloads := [], text := some "#d.pkg" } ]

/-! ## Theorems settling the claims -/

/-- Claim C1 (code-bug evidence): in world A the PackageInfo parser extracts
one valid component record, yet the aggregation entry point
`get_pkg_receiptinfo` returns Python `None` for the existing flat package
`/tmp/a.pkg`: `get_flat_pkg_info` discards every parse result and ends
without a `return` statement, so no record list is ever produced. -/
theorem claim_C1 :
    parse_pkginfo_refs fsA "/tmp/tmp0/PackageInfo"
        = [{ packageid := "com.example.a", version := some "1.2.3",
             installed_size := some 2048, file := none }] ∧
    get_pkg_receiptinfo fsA 5 "/tmp/a.pkg" ⟨0, []⟩
        = .ok (none, ⟨1, ["/tmp/tmp0"]⟩) :=
  ⟨rfl, rfl⟩

/-- Claim C3 (code-bug evidence): when an accumulated pkg-ref resolves to an
existing file, `parse_distribution_refs` extends `info` with the `None`
returned by `get_pkg_receiptinfo`, raising `TypeError`; and when the only
surviving ref carries a version, the function still evaluates to `None`
because its body ends without a `return`. The resolution-policy list is
built internally but never surfaces. -/
theorem claim_C3 :
    parse_distribution_refs fsB 5 "/tmp/d3/Distribution" none ⟨0, []⟩
        = .error .typeError ∧
    parse_distribution_refs fsB 5 "/tmp/d4/Distribution" none ⟨0, []⟩
        = .ok (none, ⟨0, []⟩) :=
  ⟨rfl, rfl⟩

/-- Counterexample to claim C4 as stated: invoked from the flat-package
aggregation path (line 263 passes no `path_to_pkg`), the body
`file:./Sub%20App.pkg` resolves relative to the scratch descriptor
directory, to `/tmp/tmp0/./Sub App.pkg` — not to `/tmp/x/Sub App.pkg` under
the installer directory — so aggregating `/tmp/x/main.pkg` never descends
into the existing sub-package and finishes having created only one scratch
directory. -/
theorem claim_C4_cex :
    accumRefs docC4.pkgRefs "/tmp/tmp0/Distribution" none
        = [("com.sub", { packageid := "com.sub", version := none,
                         installed_size := none,
                         file := some "/tmp/tmp0/./Sub App.pkg" })] ∧
    get_flat_pkg_info fsC4 5 "/tmp/x/main.pkg" ⟨0, []⟩
        = .ok (none, ⟨1, ["/tmp/tmp0"]⟩) :=
  ⟨rfl, rfl⟩

/-- Counterexample to claim C5 as stated: a `pkg-info` node carrying
`identifier` and `version` and at least one payload child with
`installKBytes` (here the second child; the first payload child has no
attributes) yields no record at all, because the code only inspects
`payloads[0]`. -/
theorem claim_C5_cex :
    parse_pkginfo_refs fs5 "/tmp/p5/PackageInfo" = [] := rfl

/-- Counterexample to claim C6 as stated: in world E listing the archive
fails (exit status 1), yet `get_flat_pkg_info` returns normally — no
`ArchiveReadError` exists anywhere in the repository — and the freshly
created scratch directory `/tmp/tmp0` is left behind. -/
theorem claim_C6_cex :
    fsE.tocRet "/tmp/bad.pkg" = 1 ∧
    get_flat_pkg_info fsE 5 "/tmp/bad.pkg" ⟨0, []⟩
        = .ok (none, ⟨1, ["/tmp/tmp0"]⟩) :=
  ⟨rfl, rfl⟩

/-- Counterexample to claim C7 as stated: after aggregating `/tmp/a.pkg`
the scratch directory `/tmp/tmp0` created by the call is still on disk in
the final state; no exit path removes it. -/
theorem claim_C7_cex :
    get_flat_pkg_info fsA 5 "/tmp/a.pkg" ⟨0, []⟩
        = .ok (none, ⟨1, ["/tmp/tmp0"]⟩) :=
  rfl

/-- Helper: with a recursive callee that runs out of fuel on
`/tmp/cyc.pkg`, the distribution parse of any descriptor path in the cyclic
world propagates that failure. -/
theorem cycParseDist (r : String → St → Res (Option (List PkgRec)))
    (hr : ∀ st, r "/tmp/cyc.pkg" st = .error .outOfFuel)
    (path : String) (st1 : St) :
    parseDistAux fsCyc r path none st1 = .error .outOfFuel := by
  have h1 : parseDistAux fsCyc r path none st1
      = (match (match r "/tmp/cyc.pkg" st1 with
                | Except.error e => (Except.error e : Res (List PkgRec))
                | Except.ok (none, _) => Except.error PyErr.typeError
                | Except.ok (some l, st2) => resolveLoopAux fsCyc r [] ([] ++ l) st2) with
         | Except.error e => (Except.error e : Res (Option (List PkgRec)))
         | Except.ok (_info, st3) => Except.ok (none, st3)) := rfl
  rw [h1, hr st1]

/-- Helper: in the cyclic world the aggregation of `/tmp/cyc.pkg` exhausts
every fuel bound, whatever the starting state. -/
theorem cycRunsOut : ∀ (n : Nat) (st : St),
    get_pkg_receiptinfo fsCyc n "/tmp/cyc.pkg" st = .error .outOfFuel := by
  intro n
  induction n with
  | zero => exact fun _ => rfl
  | succ m ih =>
    intro st
    have step1 : get_pkg_receiptinfo fsCyc (m + 1) "/tmp/cyc.pkg" st
        = (match (match parseDistAux fsCyc (get_pkg_receiptinfo fsCyc m)
                    (osPathJoin (scratchDir st.tmpCounter) "Distribution") none
                    ⟨st.tmpCounter + 1, st.dirs ++ [scratchDir st.tmpCounter]⟩ with
                  | Except.error e => (Except.error e : Res Unit)
                  | Except.ok (_x, st2) =>
                    flatLoopAux fsCyc
                      (parseDistAux fsCyc (get_pkg_receiptinfo fsCyc m)) [] st2) with
           | Except.error e => (Except.error e : Res (Option (List PkgRec)))
           | Except.ok (_u, st3) => Except.ok (none, st3)) := rfl
    rw [step1, cycParseDist (get_pkg_receiptinfo fsCyc m) ih _ _]

/-- Claim C2, amended: the recursive aggregation has no cycle protection;
aggregating the self-referential installer `/tmp/cyc.pkg` re-descends the
same installer path and exhausts every recursion bound instead of
terminating with the records resolved before the cycle. -/
theorem claim_C2 : ∀ (n : Nat) (st : St),
    get_pkg_receiptinfo fsCyc n "/tmp/cyc.pkg" st = .error .outOfFuel :=
  cycRunsOut

/-- Counterexample to claim C2 as stated: the aggregation of the
self-referential installer diverges — no recursion bound suffices — so it
does not terminate by skipping already-visited paths. -/
theorem claim_C2_cex : aggDiverges fsCyc "/tmp/cyc.pkg" := cycRunsOut

/-- Claim C4, amended: a `pkg-ref` body ending in `.pkg` and prefixed with
`file:` is percent-decoded and joined, without normalising `./` segments,
to the directory of `path_to_pkg` when that argument is supplied, and to
the directory of the distribution descriptor itself when it is not — which
is what happens on the flat-package aggregation path. -/
theorem claim_C4 (ref : XNode) (distribution_path : String)
    (path_to_pkg : Option String) (t : String) (ht : ref.text = some t)
    (h1 : strEndsWith t ".pkg" = true) (h2 : strStartsWith t "file:" = true) :
    refFile ref distribution_path path_to_pkg
      = some (osPathJoin (osPathDirname (path_to_pkg.getD distribution_path))
              (pyUnquote (strDrop t 5))) := by
  unfold refFile
  rw [ht]
  simp [h1, h2]

/-- Witness for claim C4 at the spec-example inputs: with `path_to_pkg`
supplied, `file:./Sub%20App.pkg` under installer `/tmp/x/main.pkg` resolves
to `/tmp/x/./Sub App.pkg`. -/
theorem claim_C4_wit :
    refFile subRefC4 "/tmp/tmp0/Distribution" (some "/tmp/x/main.pkg")
      = some "/tmp/x/./Sub App.pkg" := by
  have h := claim_C4 subRefC4 "/tmp/tmp0/Distribution" (some "/tmp/x/main.pkg")
      "file:./Sub%20App.pkg" rfl rfl rfl
  exact h

/-- Claim C6, amended: a failed TOC listing is never detected. Whenever
`xar -tf` produces empty stdout the aggregation ignores the exit status,
extracts nothing, returns Python `None` without signalling any error, and
the state still records the freshly created scratch directory. -/
theorem claim_C6 (fs : FS) (fuel : Nat) (p : String) (st : St)
    (h : fs.tocOut p = "") :
    get_flat_pkg_info fs fuel p st = .ok (none, (mkdtemp st).2) := by
  have h1 : get_flat_pkg_info fs fuel p st
      = (match flatLoopAux fs (parse_distribution_refs fs fuel)
            (extracted_package_info fs p
              (strSplitOn (pyStrip (fs.tocOut p)) '\n') (mkdtemp st).1).1
            (mkdtemp st).2 with
         | Except.error e => (Except.error e : Res (Option (List PkgRec)))
         | Except.ok (_u, st2) => Except.ok (none, st2)) := rfl
  rw [h1, h]
  rfl

/-- Witness for claim C6 at world E, where the listing of `/tmp/bad.pkg`
fails. -/
theorem claim_C6_wit :
    get_flat_pkg_info fsE 5 "/tmp/bad.pkg" ⟨0, []⟩
      = .ok (none, (mkdtemp ⟨0, []⟩).2) :=
  claim_C6 fsE 5 "/tmp/bad.pkg" ⟨0, []⟩ rfl

/-- Claim C9: a TOC entry whose extraction fails (non-zero status) yields
nothing, logs a failure message whenever the entry matches one of the
extractable patterns, and the entries before and after it are still
processed and yielded unchanged. -/
theorem claim_C9 (fs : FS) (pkg tmpdir : String) (t1 : List String) (e : String)
    (t2 : List String) (h : fs.extractRet pkg e ≠ 0) :
    (entryExtract fs pkg tmpdir e).1 = [] ∧
    (matchesInfoPattern e = true → (entryExtract fs pkg tmpdir e).2 ≠ []) ∧
    (extracted_package_info fs pkg (t1 ++ e :: t2) tmpdir).1
      = (extracted_package_info fs pkg t1 tmpdir).1
        ++ (extracted_package_info fs pkg t2 tmpdir).1 := by
  have he1 : (entryExtract fs pkg tmpdir e).1 = [] := by
    simp only [entryExtract, if_neg h]
    by_cases c1 : strStartsWith e "PackageInfo" <;>
      by_cases c2 : strEndsWith e ".pkg/PackageInfo" <;>
        by_cases c3 : strStartsWith e "Distribution" <;>
          simp [c1, c2, c3]
  refine ⟨he1, ?_, ?_⟩
  · intro hm
    unfold matchesInfoPattern at hm
    by_cases c1 : strStartsWith e "PackageInfo" <;>
      by_cases c2 : strEndsWith e ".pkg/PackageInfo" <;>
        by_cases c3 : strStartsWith e "Distribution" <;>
          simp [c1, c2, c3] at hm <;>
            simp [entryExtract, c1, c2, c3, h]
  · simp [extracted_package_info, List.map_append, List.flatten_append, he1]

/-- Witness for claim C9 at world 9, where extracting the entry
`PackageInfo` fails between two entries that extract fine. -/
theorem claim_C9_wit :
    (entryExtract fs9 "/p.pkg" "/tmp/t" "PackageInfo").1 = [] ∧
    (matchesInfoPattern "PackageInfo" = true →
      (entryExtract fs9 "/p.pkg" "/tmp/t" "PackageInfo").2 ≠ []) ∧
    (extracted_package_info fs9 "/p.pkg"
        (["Distribution"] ++ "PackageInfo" :: ["Sub.pkg/PackageInfo"]) "/tmp/t").1
      = (extracted_package_info fs9 "/p.pkg" ["Distribution"] "/tmp/t").1
        ++ (extracted_package_info fs9 "/p.pkg" ["Sub.pkg/PackageInfo"] "/tmp/t").1 :=
  claim_C9 fs9 "/p.pkg" "/tmp/t" ["Distribution"] "PackageInfo"
    ["Sub.pkg/PackageInfo"] (by decide)

/-- Claim C10: a `pkg-ref` element without an `id` attribute contributes
nothing to the accumulated mapping, wherever it occurs in the document and
whatever other attributes or body text it carries. -/
theorem claim_C10 (distribution_path : String) (path_to_pkg : Option String)
    (refs1 refs2 : List XNode) (r : XNode) (h : r.attrs.lookup "id" = none) :
    accumRefs (refs1 ++ r :: refs2) distribution_path path_to_pkg
      = accumRefs (refs1 ++ refs2) distribution_path path_to_pkg := by
  unfold accumRefs
  rw [List.foldl_append, List.foldl_append, List.foldl_cons]
  congr 1
  simp [accumStep, h]

/-- Witness for claim C10: dropping an id-less ref that carries a version,
a size and a body text from between two real refs leaves the accumulated
mapping unchanged. -/
theorem claim_C10_wit :
    accumRefs (dupRefs ++ noIdRef :: []) "/tmp/d/Distribution" none
      = accumRefs (dupRefs ++ []) "/tmp/d/Distribution" none :=
  claim_C10 "/tmp/d/Distribution" none dupRefs [] noIdRef rfl

/-- Helper: the dedup-append fold preserves the no-duplicates invariant. -/
theorem pkgInfoFold_nodup (l : List XNode) (acc : List PkgRec) (h : acc.Nodup) :
    (l.foldl pkgInfoStep acc).Nodup := by
  induction l generalizing acc with
  | nil => exact h
  | cons x xs ih =>
    rw [List.foldl_cons]
    apply ih
    cases hnr : pkgInfoNodeRec x with
    | none => simpa [pkgInfoStep, hnr] using h
    | some r =>
      by_cases hr : r ∈ acc
      · simpa [pkgInfoStep, hnr, hr] using h
      · simp [pkgInfoStep, hnr, hr, List.nodup_append, h]

/-- Helper: membership in the dedup-append fold is membership in the
accumulator or contribution by some element of the list. -/
theorem pkgInfoFold_mem (l : List XNode) (acc : List PkgRec) (r : PkgRec) :
    r ∈ l.foldl pkgInfoStep acc ↔
      r ∈ acc ∨ ∃ ref ∈ l, pkgInfoNodeRec ref = some r := by
  induction l generalizing acc with
  | nil => simp
  | cons x xs ih =>
    rw [List.foldl_cons, ih]
    cases hnr : pkgInfoNodeRec x with
    | none =>
      simp only [pkgInfoStep, hnr, List.mem_cons]
      constructor
      · rintro (hx | hx)
        · exact Or.inl hx
        · exact Or.inr (by rcases hx with ⟨q, hq, hq2⟩; exact ⟨q, by simp [hq], hq2⟩)
      · rintro (hx | ⟨q, hq | hq, hq2⟩)
        · exact Or.inl hx
        · subst hq; simp [hnr] at hq2
        · exact Or.inr ⟨q, hq, hq2⟩
    | some r0 =>
      by_cases hr0 : r0 ∈ acc
      · simp only [pkgInfoStep, hnr, if_pos hr0, List.mem_cons]
        constructor
        · rintro (hx | hx)
          · exact Or.inl hx
          · exact Or.inr (by rcases hx with ⟨q, hq, hq2⟩; exact ⟨q, by simp [hq], hq2⟩)
        · rintro (hx | ⟨q, hq | hq, hq2⟩)
          · exact Or.inl hx
          · subst hq
            rw [hnr] at hq2
            obtain rfl : r0 = r := by injection hq2
            exact Or.inl hr0
          · exact Or.inr ⟨q, hq, hq2⟩
      · simp only [pkgInfoStep, hnr, if_neg hr0, List.mem_cons, List.mem_append,
          List.mem_singleton]
        constructor
        · rintro ((hx | hx) | hx)
          · exact Or.inl hx
          · rcases hx with hx | hx
            · subst hx; exact Or.inr ⟨x, by simp, hnr⟩
            · simp at hx
          · exact Or.inr (by rcases hx with ⟨q, hq, hq2⟩; exact ⟨q, by simp [hq], hq2⟩)
        · rintro (hx | ⟨q, hq | hq, hq2⟩)
          · exact Or.inl (Or.inl hx)
          · subst hq
            rw [hnr] at hq2
            obtain rfl : r0 = r := by injection hq2
            exact Or.inl (Or.inr (Or.inl rfl))
          · exact Or.inr ⟨q, hq, hq2⟩

/-- Claim C5, amended: the PackageInfo parser emits exactly one record per
distinct (identifier, version, size) triple — its output has no duplicates,
and a record is present iff some `pkg-info` node contributes it — where a
node contributes only when it carries both attributes and its FIRST payload
child carries `installKBytes`. -/
theorem claim_C5 (fs : FS) (pkg_info_path : String) :
    (parse_pkginfo_refs fs pkg_info_path).Nodup ∧
    ∀ r : PkgRec, r ∈ parse_pkginfo_refs fs pkg_info_path ↔
      ∃ ref ∈ (fs.parseDoc pkg_info_path).pkgInfos, pkgInfoNodeRec ref = some r := by
  constructor
  · exact pkgInfoFold_nodup _ _ List.nodup_nil
  · intro r
    have h := pkgInfoFold_mem (fs.parseDoc pkg_info_path).pkgInfos [] r
    simpa [parse_pkginfo_refs] using h

/-- Helper: growth of the directory list is transitive. -/
theorem dirsGrow_trans {a b c : St} (h1 : dirsGrow a b) (h2 : dirsGrow b c) :
    dirsGrow a c := by
  obtain ⟨l1, e1⟩ := h1
  obtain ⟨l2, e2⟩ := h2
  exact ⟨l1 ++ l2, by rw [e2, e1, List.append_assoc]⟩

/-- Helper: the resolution loop never removes a scratch directory, provided
its recursive callee never does. -/
theorem resolveLoopAux_dirs (fs : FS) (r : String → St → Res (Option (List PkgRec)))
    (hr : ∀ p st x st1, r p st = .ok (x, st1) → dirsGrow st st1) :
    ∀ (entries : List (String × PkgRec)) (info : List PkgRec) (st : St)
      (x : List PkgRec) (st1 : St),
      resolveLoopAux fs r entries info st = .ok (x, st1) → dirsGrow st st1 := by
  intro entries
  induction entries with
  | nil =>
    intro info st x st1 h
    simp only [resolveLoopAux, Except.ok.injEq, Prod.mk.injEq] at h
    obtain ⟨-, rfl⟩ := h
    exact ⟨[], by simp⟩
  | cons e rest ih =>
    obtain ⟨k, pkgref⟩ := e
    intro info st x st1 h
    cases hf : pkgref.file with
    | none =>
      cases hv : pkgref.version with
      | some v =>
        have h2 : resolveLoopAux fs r rest (info ++ [{ pkgref with file := none }]) st
            = .ok (x, st1) := by
          simpa [resolveLoopAux, hf, hv] using h
        exact ih _ _ _ _ h2
      | none =>
        have h2 : resolveLoopAux fs r rest info st = .ok (x, st1) := by
          simpa [resolveLoopAux, hf, hv] using h
        exact ih _ _ _ _ h2
    | some f =>
      by_cases hex : pathExists fs f = true
      · have h2 : (match r f st with
                   | Except.error e => (Except.error e : Res (List PkgRec))
                   | Except.ok (none, _) => Except.error PyErr.typeError
                   | Except.ok (some l, st2) => resolveLoopAux fs r rest (info ++ l) st2)
                  = .ok (x, st1) := by
          simpa [resolveLoopAux, hf, hex] using h
        cases hrec : r f st with
        | error e0 => rw [hrec] at h2; exact Except.noConfusion h2
        | ok pr =>
          obtain ⟨xr, str⟩ := pr
          rw [hrec] at h2
          cases xr with
          | none => exact Except.noConfusion h2
          | some l0 =>
            exact dirsGrow_trans (hr f st _ _ hrec) (ih _ _ _ _ h2)
      · cases hv : pkgref.version with
        | some v =>
          have h2 : resolveLoopAux fs r rest (info ++ [{ pkgref with file := none }]) st
              = .ok (x, st1) := by
            simpa [resolveLoopAux, hf, hv, hex] using h
          exact ih _ _ _ _ h2
        | none =>
          have h2 : resolveLoopAux fs r rest info st = .ok (x, st1) := by
            simpa [resolveLoopAux, hf, hv, hex] using h
          exact ih _ _ _ _ h2

/-- Helper: the dispatch loop never removes a scratch directory, provided
the distribution parser never does. -/
theorem flatLoopAux_dirs (fs : FS)
    (pD : String → Option String → St → Res (Option (List PkgRec)))
    (hp : ∀ dp ptp st x st1, pD dp ptp st = .ok (x, st1) → dirsGrow st st1) :
    ∀ (items : List (String × InfoType)) (st : St) (x : Unit) (st1 : St),
      flatLoopAux fs pD items st = .ok (x, st1) → dirsGrow st st1 := by
  intro items
  induction items with
  | nil =>
    intro st x st1 h
    simp only [flatLoopAux, Except.ok.injEq, Prod.mk.injEq] at h
    obtain ⟨-, rfl⟩ := h
    exact ⟨[], by simp⟩
  | cons e rest ih =>
    obtain ⟨path, ty⟩ := e
    intro st x st1 h
    cases ty with
    | pkginfo =>
      have h2 : flatLoopAux fs pD rest st = .ok (x, st1) := by
        simpa [flatLoopAux] using h
      exact ih _ _ _ h2
    | distribution =>
      have h2 : (match pD path none st with
                 | Except.error e => (Except.error e : Res Unit)
                 | Except.ok (_x, st2) => flatLoopAux fs pD rest st2)
                = .ok (x, st1) := by
        simpa [flatLoopAux] using h
      cases hrec : pD path none st with
      | error e0 => rw [hrec] at h2; exact Except.noConfusion h2
      | ok pr =>
        obtain ⟨xr, str⟩ := pr
        rw [hrec] at h2
        exact dirsGrow_trans (hp _ _ _ _ _ hrec) (ih _ _ _ h2)

/-- Helper: a successful flat-package aggregation leaves the directory list
equal to the old list extended with the scratch directory it created,
followed by those of nested calls. -/
theorem getFlatAux_dirs (fs : FS)
    (pD : String → Option String → St → Res (Option (List PkgRec)))
    (hp : ∀ dp ptp st x st1, pD dp ptp st = .ok (x, st1) → dirsGrow st st1)
    (filename : String) (st : St) (x : Option (List PkgRec)) (st1 : St)
    (h : getFlatAux fs pD filename st = .ok (x, st1)) :
    ∃ l, st1.dirs = st.dirs ++ scratchDir st.tmpCounter :: l := by
  simp only [getFlatAux] at h
  cases hrec : flatLoopAux fs pD
      (extracted_package_info fs filename
        (strSplitOn (pyStrip (fs.tocOut filename)) '\n') (mkdtemp st).1).1
      (mkdtemp st).2 with
  | error e0 => rw [hrec] at h; exact Except.noConfusion h
  | ok pr =>
    obtain ⟨u, st2⟩ := pr
    rw [hrec] at h
    obtain ⟨-, rfl⟩ : (none : Option (List PkgRec)) = x ∧ st2 = st1 := by
      simpa using h
    obtain ⟨l, hl⟩ := flatLoopAux_dirs fs pD hp _ _ _ _ hrec
    refine ⟨l, ?_⟩
    rw [hl]
    simp [mkdtemp]

/-- Helper: `parse_distribution_refs` never removes a scratch directory,
provided the recursive aggregation never does. -/
theorem parseDistAux_dirs (fs : FS) (r : String → St → Res (Option (List PkgRec)))
    (hr : ∀ p st x st1, r p st = .ok (x, st1) → dirsGrow st st1)
    (dp : String) (ptp : Option String) (st : St) (x : Option (List PkgRec)) (st1 : St)
    (h : parseDistAux fs r dp ptp st = .ok (x, st1)) : dirsGrow st st1 := by
  simp only [parseDistAux] at h
  cases hrec : resolveLoopAux fs r (accumRefs (fs.parseDoc dp).pkgRefs dp ptp) [] st with
  | error e0 => rw [hrec] at h; exact Except.noConfusion h
  | ok pr =>
    obtain ⟨xr, str⟩ := pr
    rw [hrec] at h
    obtain ⟨-, rfl⟩ : (none : Option (List PkgRec)) = x ∧ str = st1 := by
      simpa using h
    exact resolveLoopAux_dirs fs r hr _ _ _ _ _ hrec

/-- Helper: `get_pkg_receiptinfo` never removes a scratch directory, at any
fuel. -/
theorem receipt_dirs (fs : FS) :
    ∀ (n : Nat) (p : String) (st : St) (x : Option (List PkgRec)) (st1 : St),
      get_pkg_receiptinfo fs n p st = .ok (x, st1) → dirsGrow st st1 := by
  intro n
  induction n with
  | zero => intro p st x st1 h; exact Except.noConfusion h
  | succ m ih =>
    intro p st x st1 h
    by_cases hf : fs.isFile p = true
    · have h2 : getFlatAux fs (parseDistAux fs (get_pkg_receiptinfo fs m)) p st
          = .ok (x, st1) := by
        simpa [get_pkg_receiptinfo, hf] using h
      obtain ⟨l, hl⟩ := getFlatAux_dirs fs _
        (fun dp ptp st2 x2 st3 hpd => parseDistAux_dirs fs _ ih dp ptp st2 x2 st3 hpd)
        p st x st1 h2
      exact ⟨scratchDir st.tmpCounter :: l, hl⟩
    · by_cases hd : fs.isDir p = true
      · simp [get_pkg_receiptinfo, hf, hd] at h
      · have h2 : (Except.ok (none, st) : Res (Option (List PkgRec))) = .ok (x, st1) := by
          simpa [get_pkg_receiptinfo, hf, hd] using h
        simp only [Except.ok.injEq, Prod.mk.injEq] at h2
        obtain ⟨-, rfl⟩ := h2
        exact ⟨[], by simp⟩

/-- Claim C7, amended: each flat aggregation call creates exactly one fresh
scratch directory before extraction, and no exit path removes any: on every
successful return the directory list equals the old list extended with the
new scratch directory (followed by those of nested calls), which therefore
persists after the call. -/
theorem claim_C7 (fs : FS) (fuel : Nat) (p : String) (st : St)
    (x : Option (List PkgRec)) (st1 : St)
    (h : get_flat_pkg_info fs fuel p st = .ok (x, st1)) :
    (mkdtemp st).1 ∈ st1.dirs ∧ ∃ l, st1.dirs = st.dirs ++ (mkdtemp st).1 :: l := by
  have hp : ∀ dp ptp st2 x2 st3,
      parse_distribution_refs fs fuel dp ptp st2 = .ok (x2, st3) → dirsGrow st2 st3 :=
    fun dp ptp st2 x2 st3 hpd =>
      parseDistAux_dirs fs _ (receipt_dirs fs fuel) dp ptp st2 x2 st3 hpd
  obtain ⟨l, hl⟩ := getFlatAux_dirs fs _ hp p st x st1 h
  constructor
  · rw [hl]; simp [mkdtemp, scratchDir]
  · exact ⟨l, by simpa [mkdtemp, scratchDir] using hl⟩

/-- Witness for claim C7 at world A: the scratch directory `/tmp/tmp0`
created while aggregating `/tmp/a.pkg` persists in the final state. -/
theorem claim_C7_wit :
    ("/tmp/tmp0" ∈ (⟨1, ["/tmp/tmp0"]⟩ : St).dirs ∧
      ∃ l, (⟨1, ["/tmp/tmp0"]⟩ : St).dirs
        = (⟨0, []⟩ : St).dirs ++ "/tmp/tmp0" :: l) := by
  have h := claim_C7 fsA 1 "/tmp/a.pkg" ⟨0, []⟩ none ⟨1, ["/tmp/tmp0"]⟩ rfl
  exact h

/-- Helper: dict lookup after insert-or-replace. -/
theorem dictGet_assocSet (d : List (String × PkgRec)) (k : String) (v : PkgRec)
    (q : String) :
    dictGet (assocSet d k v) q = if q = k then some v else dictGet d q := by
  induction d with
  | nil => by_cases hq : q = k <;> simp [assocSet, dictGet, hq]
  | cons hd tl ih =>
    obtain ⟨k0, v0⟩ := hd
    by_cases hk : k0 = k
    · subst hk
      by_cases hq : q = k0 <;> simp [assocSet, dictGet, hq]
    · by_cases hq : q = k0
      · subst hq
        have hqk : ¬ q = k := hk
        simp [assocSet, dictGet, hk, hqk]
      · simp [assocSet, dictGet, hk, hq, ih]

/-- Helper: a fold guarded on the id attribute skips lists in which no
element carries the id. -/
theorem foldl_guard_skip {α : Type} (g : Option α → XNode → Option α) (pid : String) :
    ∀ (refs : List XNode), (∀ r ∈ refs, ¬ r.attrs.lookup "id" = some pid) →
      ∀ (a : Option α),
        refs.foldl (fun acc r =>
          if r.attrs.lookup "id" = some pid then g acc r else acc) a = a := by
  intro refs
  induction refs with
  | nil => intro _ _; rfl
  | cons x xs ih =>
    intro h a
    rw [List.foldl_cons, if_neg (h x (List.mem_cons_self x xs))]
    exact ih (fun r hr => h r (List.mem_cons_of_mem x hr)) a

/-- Helper: without any ref carrying the id there is no last attribute
value. -/
theorem lastAttrVal_none (refs : List XNode) (pid k : String)
    (h : hasRefWithId refs pid = false) : lastAttrVal refs pid k = none := by
  have h2 : ∀ r ∈ refs, ¬ r.attrs.lookup "id" = some pid := by
    simpa [hasRefWithId, List.any_eq_false] using h
  exact foldl_guard_skip _ pid refs h2 none

/-- Helper: without any ref carrying the id there is no last file value. -/
theorem lastFileVal_none (refs : List XNode) (dp : String) (ptp : Option String)
    (pid : String) (h : hasRefWithId refs pid = false) :
    lastFileVal refs dp ptp pid = none := by
  have h2 : ∀ r ∈ refs, ¬ r.attrs.lookup "id" = some pid := by
    simpa [hasRefWithId, List.any_eq_false] using h
  exact foldl_guard_skip _ pid refs h2 none

/-- Claim C8: repeated `pkg-ref` elements sharing an id merge with
last-write-wins semantics: the accumulated record under an id exists iff
some ref carries that id, and then its `version`, `installed_size` and
`file` equal the values supplied by the last ref in document order that
supplied each attribute. -/
theorem claim_C8 (refs : List XNode) (dp : String) (ptp : Option String)
    (pid : String) :
    dictGet (accumRefs refs dp ptp) pid
      = if hasRefWithId refs pid then
          some { packageid := pid,
                 version := lastAttrVal refs pid "version",
                 installed_size := (lastAttrVal refs pid "installKBytes").map pyInt,
                 file := lastFileVal refs dp ptp pid }
        else none := by
  induction refs using List.reverseRecOn with
  | nil => simp [accumRefs, dictGet, hasRefWithId]
  | append_singleton refs r ih =>
    have hacc : accumRefs (refs ++ [r]) dp ptp
        = accumStep dp ptp (accumRefs refs dp ptp) r := by
      simp [accumRefs, List.foldl_append]
    have hlastV : ∀ k, lastAttrVal (refs ++ [r]) pid k
        = (if r.attrs.lookup "id" = some pid then
             match r.attrs.lookup k with
             | some v => some v
             | none => lastAttrVal refs pid k
           else lastAttrVal refs pid k) := by
      intro k; simp [lastAttrVal, List.foldl_append]
    have hlastF : lastFileVal (refs ++ [r]) dp ptp pid
        = (if r.attrs.lookup "id" = some pid then
             match refFile r dp ptp with
             | some f => some f
             | none => lastFileVal refs dp ptp pid
           else lastFileVal refs dp ptp pid) := by
      simp [lastFileVal, List.foldl_append]
    have hhas : hasRefWithId (refs ++ [r]) pid
        = (hasRefWithId refs pid || decide (r.attrs.lookup "id" = some pid)) := by
      simp [hasRefWithId, List.any_append]
    rw [hacc, hlastV "version", hlastV "installKBytes", hlastF, hhas]
    cases hid : r.attrs.lookup "id" with
    | none =>
      simp [accumStep, hid, ih]
    | some q =>
      by_cases hq : q = pid
      · subst hq
        by_cases hprev : hasRefWithId refs q = true
        · simp only [accumStep, hid, dictGet_assocSet, if_pos rfl, ih, hprev]
          cases hv : r.attrs.lookup "version" <;>
            cases hk : r.attrs.lookup "installKBytes" <;>
              cases hf : refFile r dp ptp <;>
                simp [updRef, hv, hk, hf]
        · have hprev2 : hasRefWithId refs q = false := by
            simpa using hprev
          simp only [accumStep, hid, dictGet_assocSet, if_pos rfl, ih, hprev2,
            lastAttrVal_none refs q "version" hprev2,
            lastAttrVal_none refs q "installKBytes" hprev2,
            lastFileVal_none refs dp ptp q hprev2]
          cases hv : r.attrs.lookup "version" <;>
            cases hk : r.attrs.lookup "installKBytes" <;>
              cases hf : refFile r dp ptp <;>
                simp [updRef, hv, hk, hf]
      · have hpq : ¬ pid = q := fun hc => hq hc.symm
        have hsome : ¬ (some q = some pid) := by
          intro hc; exact hq (Option.some.inj hc)
        simp [accumStep, hid, dictGet_assocSet, hpq, hsome, ih]
